import Mathlib

/-!
Verification development for the HLS sink of bldsoft/gstreamer
(`subprojects/gst-plugins-bad/ext/hls/gstm3u8playlist.c`, which contains
both the M3U8 playlist model and the `hlssink` element).

The C sources are embedded shallowly:
  * GLib queues become Lean lists (head = oldest entry);
  * `gfloat`/`GstClockTime` durations are nanosecond naturals — every
    duration appearing in the claims (multiples of 100 ms) is exactly
    representable as a `gfloat`, so the embedding is exact on them;
  * out-parameters and return codes become product results;
  * the file system touched by the segment encryptor is an explicit
    association list from path strings to byte lists;
  * external-library outcomes (cipher init, `stat`, `fread`, `fwrite`,
    `rename`) are injected through an environment record so that every
    failure path of `gst_hls_sink_encrypt_chunk` can be exercised.
-/

/-- GStreamer's `GST_SECOND` (nanoseconds per second). -/
def GST_SECOND : Nat := 1000000000

/-- GStreamer's `GST_MSECOND` (nanoseconds per millisecond). -/
def GST_MSECOND : Nat := 1000000

/-- `AES_BLOCK_SIZE` from gsthlssink.c. -/
def AES_BLOCK_SIZE : Nat := 16

/-- A GLib `GDateTime`, abstracted: the `%FT%T`-formatted part and the
microsecond field are all the playlist renderer reads from it. -/
structure GDateTime where
  formatted : String
  microsecond : Nat
  deriving DecidableEq

/-- `GstHlsSinkProgramDateMode` (never / first chunk / all chunks). -/
inductive GstHlsProgramDateTimeMode where
  | never
  | firstChunk
  | allChunks
  deriving DecidableEq

/-- The playlist type enum: `GST_M3U8_PLAYLIST_TYPE_EVENT` / `_VOD`. -/
inductive GstM3U8PlaylistType where
  | event
  | vod
  deriving DecidableEq

/-- `GstM3U8Entry`: url, optional title, duration (ns), discontinuity flag,
optional program date time. -/
structure GstM3U8Entry where
  duration : Nat
  title : Option String
  url : String
  discontinuous : Bool
  program_date_time : Option GDateTime
  deriving DecidableEq

/-- `GstM3U8Playlist` (fields as in gstm3u8playlist.h/gstm3u8playlist.c;
`key_location` is `NULL`-able, hence an `Option`). -/
structure GstM3U8Playlist where
  version : Nat
  window_size : Nat
  type : GstM3U8PlaylistType
  end_list : Bool
  encryption_method : Nat
  key_location : Option String
  entries : List GstM3U8Entry
  sequence_number : Nat
  discontinuity_sequence_number : Nat
  program_date_time_mode : GstHlsProgramDateTimeMode
  deriving DecidableEq

/-- `gst_m3u8_playlist_new`: `g_new0` zero-initializes `sequence_number` and
`discontinuity_sequence_number`; type is EVENT, `end_list` FALSE,
`encryption_method` 0, `key_location` "playlist.key", date-time mode
ALL_CHUNKS. -/
def gst_m3u8_playlist_new (version window_size : Nat) : GstM3U8Playlist :=
  { version := version
    window_size := window_size
    type := GstM3U8PlaylistType.event
    end_list := false
    encryption_method := 0
    key_location := some "playlist.key"
    entries := []
    sequence_number := 0
    discontinuity_sequence_number := 0
    program_date_time_mode := GstHlsProgramDateTimeMode.allChunks }

/-- Modelled from the spec: `finalize()` sets `ended` to true. The sources
contain no `gst_m3u8_playlist_finalize`; the sink sets the playlist's
`end_list` flag directly at end of stream
(`sink->playlist->end_list = TRUE`), which this definition mirrors. -/
def gst_m3u8_playlist_finalize (p : GstM3U8Playlist) : GstM3U8Playlist :=
  { p with end_list := true }

/-- The eviction loop of `gst_m3u8_playlist_add_entry`:
`while (playlist->entries->length >= playlist->window_size)` pop the head
(oldest entry). -/
def evictOldEntries (window_size : Nat) : List GstM3U8Entry → List GstM3U8Entry
  | [] => []
  | e :: rest =>
    if window_size ≤ (e :: rest).length then evictOldEntries window_size rest
    else e :: rest

/-- `gst_m3u8_playlist_add_entry`. `g_return_val_if_fail` on a NULL url
returns FALSE without touching the playlist (the NULL-playlist guard lives
in `gst_m3u8_playlist_add_entry_checked` below); a VOD-typed playlist is
rejected; otherwise old entries are evicted while the queue is at or above
`window_size` (only when `window_size > 0`), the sequence number is set to
`index + 1` — computed in `guint`, so it wraps modulo 2^32 (the sink's
default first call passes `(guint)-1 = 4294967295` and stores 0) — and the
new entry is pushed at the tail. -/
def gst_m3u8_playlist_add_entry (playlist : GstM3U8Playlist) (url : Option String)
    (title : Option String) (duration : Nat) (index : Nat) (discontinuous : Bool)
    (program_date_time : Option GDateTime) : GstM3U8Playlist × Bool :=
  match url with
  | none => (playlist, false)
  | some u =>
    if playlist.type = GstM3U8PlaylistType.vod then (playlist, false)
    else
      let entry : GstM3U8Entry :=
        { duration := duration, title := title, url := u,
          discontinuous := discontinuous, program_date_time := program_date_time }
      let entries :=
        if 0 < playlist.window_size then evictOldEntries playlist.window_size playlist.entries
        else playlist.entries
      let seq := (index + 1) % 4294967296
      ({ playlist with entries := entries ++ [entry], sequence_number := seq }, true)

/-- `gst_m3u8_playlist_add_entry` including the
`g_return_val_if_fail (playlist != NULL, FALSE)` guard: a NULL playlist
yields FALSE and no state to mutate. -/
def gst_m3u8_playlist_add_entry_checked (playlist : Option GstM3U8Playlist)
    (url : Option String) (title : Option String) (duration : Nat) (index : Nat)
    (discontinuous : Bool) (program_date_time : Option GDateTime) :
    Option GstM3U8Playlist × Bool :=
  match playlist with
  | none => (none, false)
  | some p =>
    let r := gst_m3u8_playlist_add_entry p url title duration index discontinuous
      program_date_time
    (some r.1, r.2)

/-- The maximum-duration loop of `gst_m3u8_playlist_target_duration`. -/
def maxEntryDuration (p : GstM3U8Playlist) : Nat :=
  p.entries.foldl (fun acc e => if acc < e.duration then e.duration else acc) 0

/-- `gst_m3u8_playlist_target_duration`:
`ceil ((target_duration + 500.0 * GST_MSECOND) / GST_SECOND)`, computed here
exactly over ℕ as a ceiling division (the C `double` computation is exact for
every duration a `gfloat` entry can hold plus the 500 ms bias). -/
def gst_m3u8_playlist_target_duration (p : GstM3U8Playlist) : Nat :=
  (maxEntryDuration p + 500 * GST_MSECOND + (GST_SECOND - 1)) / GST_SECOND

/-- `encryption_method_to_string`: NONE / AES-128, NULL out of range. -/
def encryption_method_to_string (method : Nat) : Option String :=
  if method = 0 then some "NONE"
  else if method = 1 then some "AES-128"
  else none

/-- Decimal rendering of `n` left-padded with zeros to `width` digits
(printf `%03d` / fraction padding). -/
def padZeros (width n : Nat) : String :=
  let s := toString n
  String.mk (List.replicate (width - s.length) '0') ++ s

/-- printf `"%.6f"` applied to `duration / GST_SECOND` for a nanosecond
duration: seconds with six fractional digits, rounding half up to the
nearest microsecond. -/
def formatSeconds6 (duration : Nat) : String :=
  let micros := (duration + 500) / 1000
  toString (micros / 1000000) ++ "." ++ padZeros 6 (micros % 1000000)

/-- `format_program_date_time`. `isFirst` stands for the C pointer test
`entry != playlist->entries->head->data` (each entry is a distinct
allocation, so pointer equality with the head means first position). A NULL
`program_date_time` produces no output (`if (time_str)` guard). -/
def format_program_date_time (p : GstM3U8Playlist) (isFirst : Bool)
    (entry : GstM3U8Entry) : String :=
  if p.program_date_time_mode = GstHlsProgramDateTimeMode.never then ""
  else if p.program_date_time_mode = GstHlsProgramDateTimeMode.firstChunk ∧
      ¬isFirst ∧ ¬entry.discontinuous then ""
  else
    match entry.program_date_time with
    | none => ""
    | some dt =>
      "#EXT-X-PROGRAM-DATE-TIME:" ++ dt.formatted ++ "." ++
        padZeros 3 (dt.microsecond / 1000) ++ "Z\n"

/-- The per-entry body of the `gst_m3u8_playlist_render` loop. -/
def renderEntries (p : GstM3U8Playlist) : Bool → List GstM3U8Entry → String
  | _, [] => ""
  | isFirst, e :: rest =>
    (if e.discontinuous then "#EXT-X-DISCONTINUITY\n" else "")
    ++ format_program_date_time p isFirst e
    ++ (if p.version < 3 then
          "#EXTINF:" ++ toString ((e.duration + 500 * GST_MSECOND) / GST_SECOND)
            ++ "," ++ e.title.getD "" ++ "\n"
        else
          "#EXTINF:" ++ formatSeconds6 e.duration ++ "," ++ e.title.getD "" ++ "\n")
    ++ e.url ++ "\n"
    ++ renderEntries p false rest

/-- `guint` subtraction: both operands truncated to 32 bits, difference
modulo 2^32. -/
def guint_sub (a b : Nat) : Nat :=
  (a % 4294967296 + 4294967296 - b % 4294967296) % 4294967296

/-- Reinterpret a `guint` value as the `gint` that printf `%d` prints. -/
def gint_of_guint (n : Nat) : Int :=
  if n % 4294967296 < 2147483648 then (n % 4294967296 : Int)
  else (n % 4294967296 : Int) - 4294967296

/-- `gst_m3u8_playlist_render`.  The MEDIA-SEQUENCE value is the `guint`
difference `sequence_number - entries->length` printed with `%d`, i.e.
reinterpreted as a signed 32-bit integer (it renders as a negative number
when the playlist holds more entries than the sequence number counts). -/
def gst_m3u8_playlist_render (p : GstM3U8Playlist) : String :=
  "#EXTM3U\n"
  ++ "#EXT-X-VERSION:" ++ toString p.version ++ "\n"
  ++ "#EXT-X-MEDIA-SEQUENCE:"
    ++ toString (gint_of_guint (guint_sub p.sequence_number p.entries.length)) ++ "\n"
  ++ "#EXT-X-TARGETDURATION:" ++ toString (gst_m3u8_playlist_target_duration p) ++ "\n"
  ++ (if p.encryption_method ≠ 0 ∧ p.key_location.isSome then
        "#EXT-X-KEY:METHOD=" ++ (encryption_method_to_string p.encryption_method).getD "(null)"
          ++ ",URI=\"" ++ p.key_location.getD "" ++ "\"\n"
      else "")
  ++ "\n"
  ++ renderEntries p true p.entries
  ++ (if p.end_list then "#EXT-X-ENDLIST" else "")

/-- Arguments of one (successful) `gst_m3u8_playlist_add_entry` call. -/
structure AddArgs where
  url : String
  title : Option String
  duration : Nat
  index : Nat
  discontinuous : Bool
  program_date_time : Option GDateTime
  deriving DecidableEq

/-- The entry a successful `add_entry` call with these arguments appends. -/
def addArgsEntry (a : AddArgs) : GstM3U8Entry :=
  { duration := a.duration, title := a.title, url := a.url,
    discontinuous := a.discontinuous, program_date_time := a.program_date_time }

/-- Fold a sequence of `add_entry` calls over a playlist. -/
def applyAddEntries (p : GstM3U8Playlist) : List AddArgs → GstM3U8Playlist
  | [] => p
  | a :: rest =>
    applyAddEntries
      (gst_m3u8_playlist_add_entry p (some a.url) a.title a.duration a.index
        a.discontinuous a.program_date_time).1
      rest

/-! ## File system and segment encryption -/

/-- Strip leading `./` segments from a path's characters.  This is the one
alias form the sink's path construction can produce: `g_path_get_dirname`
returns `"."` for a slash-free (cwd-relative) file name, so the temporary
path of a segment named `x` is `./x` — the same POSIX file as `x`.  Other
alias forms (`..`, symlinks, hard links) are outside the model. -/
def stripDotSlash : List Char → List Char
  | c1 :: c2 :: rest =>
    if c1 = '.' ∧ c2 = '/' then stripDotSlash rest else c1 :: c2 :: rest
  | cs => cs

/-- Canonical form of a path: leading `./` segments removed, so that `x` and
`./x` denote the same file. -/
def normPath (s : String) : String := String.mk (stripDotSlash s.toList)

/-- A file system: association list from canonical paths to byte contents.
All operations canonicalize their path argument with `normPath`, so the
cwd-relative alias `./x` resolves to the same file as `x`. -/
abbrev FileSystem := List (String × List Nat)

/-- Contents at a path, `none` when the file does not exist. -/
def fsRead (fs : FileSystem) (path : String) : Option (List Nat) :=
  (fs.find? (fun e => e.1 == normPath path)).map (fun e => e.2)

/-- Create or overwrite the file stored under the canonical key `key`. -/
def fsWriteKey (fs : FileSystem) (key : String) (data : List Nat) : FileSystem :=
  match fs with
  | [] => [(key, data)]
  | e :: rest => if e.1 == key then (key, data) :: rest else e :: fsWriteKey rest key data

/-- Create or overwrite a file. -/
def fsWrite (fs : FileSystem) (path : String) (data : List Nat) : FileSystem :=
  fsWriteKey fs (normPath path) data

/-- Remove a file. -/
def fsErase (fs : FileSystem) (path : String) : FileSystem :=
  fs.filter (fun e => !(e.1 == normPath path))

/-- POSIX `rename(src, dst)`. -/
def fsRename (fs : FileSystem) (src dst : String) : FileSystem :=
  match fsRead fs src with
  | none => fs
  | some data => fsWrite (fsErase fs src) dst data

/-- Bytes of a string, for persisting the rendered playlist. -/
def strBytes (s : String) : List Nat := s.toList.map Char.toNat

/-- Characters before the last `/`, and the characters after it. -/
def splitAtLastSlash : List Char → Option (List Char) × List Char
  | [] => (none, [])
  | c :: rest =>
    match splitAtLastSlash rest with
    | (some pre, suf) => (some (c :: pre), suf)
    | (none, suf) => if c = '/' then (some [], suf) else (none, c :: suf)

/-- `g_path_get_dirname` (root/trailing-slash edge cases, which the sink
never produces, are simplified away). -/
def g_path_get_dirname (s : String) : String :=
  match (splitAtLastSlash s.toList).1 with
  | some pre => String.mk pre
  | none => "."

/-- `g_path_get_basename` (same simplification). -/
def g_path_get_basename (s : String) : String :=
  String.mk (splitAtLastSlash s.toList).2

/-- `g_build_filename dir name`. -/
def g_build_filename (dir name : String) : String := dir ++ "/" ++ name

/-- Write `bytes` into `buf` starting at position `pos` (the IV copy loop of
`gst_hls_sink_create_iv`). -/
def setBytes : List Nat → Nat → List Nat → List Nat
  | buf, _, [] => buf
  | buf, pos, b :: rest => setBytes (buf.set pos b) (pos + 1) rest

/-- The four bytes of `GUINT_TO_BE n` in memory order (most significant
first). -/
def beBytes4 (n : Nat) : List Nat :=
  [n / 16777216 % 256, n / 65536 % 256, n / 256 % 256, n % 256]

/-- `gst_hls_sink_create_iv`: copy the big-endian bytes of the 32-bit
`sink->index` into `iv[AES_BLOCK_SIZE - 4 .. AES_BLOCK_SIZE)`. -/
def gst_hls_sink_create_iv (index : Nat) (iv : List Nat) : List Nat :=
  setBytes iv (AES_BLOCK_SIZE - 4) (beBytes4 (index % 4294967296))

/-- The IV that `gst_hls_sink_init_encrypting` hands to the cipher:
`unsigned char iv[AES_BLOCK_SIZE] = { 0 }` then `gst_hls_sink_create_iv`. -/
def gst_hls_sink_init_encrypting_iv (index : Nat) : List Nat :=
  gst_hls_sink_create_iv index (List.replicate AES_BLOCK_SIZE 0)

/-- Outcomes of the external calls made by `gst_hls_sink_encrypt_chunk`,
plus the cipher itself (IV and plaintext to ciphertext, padding included)
kept abstract — the claims never inspect ciphertext bytes. -/
structure EncryptEnv where
  initOk : Bool
  openEncOk : Bool
  statOk : Bool
  readOk : Bool
  cipherOk : Bool
  writeOk : Bool
  renameOk : Bool
  cipher : List Nat → List Nat → List Nat

/-- `gst_hls_sink_encrypt_chunk`, step for step:
cipher init (IV derived from `index`); `fopen(filename, "rb")` together with
`fopen(dirname(filename)/encrypted, "wb")` — the latter truncates/creates
the temporary file when it succeeds; `stat`; `fread`; pad+encrypt; `fwrite`
of the ciphertext to the temporary path; `rename` of the temporary path over
the original.  Every failure jumps to cleanup, leaving the file system as it
is at that point.  Partial `fwrite` contents of the temporary file are
abstracted to the empty file it was truncated to. -/
def gst_hls_sink_encrypt_chunk (env : EncryptEnv) (index : Nat)
    (fs : FileSystem) (filename : String) : FileSystem :=
  let _iv := gst_hls_sink_init_encrypting_iv index
  if !env.initOk then fs
  else
    let chunkData := fsRead fs filename
    let root_dir := g_path_get_dirname filename
    let encrypted_chunk_path := g_build_filename root_dir "encrypted"
    let fs1 := if env.openEncOk then fsWrite fs encrypted_chunk_path [] else fs
    if chunkData.isNone || !env.openEncOk then fs1
    else if !env.statOk then fs1
    else if !env.readOk then fs1
    else
      let ciphertext := env.cipher (gst_hls_sink_init_encrypting_iv index) (chunkData.getD [])
      if !env.cipherOk then fs1
      else if !env.writeOk then fs1
      else
        let fs2 := fsWrite fs1 encrypted_chunk_path ciphertext
        if env.renameOk then fsRename fs2 encrypted_chunk_path filename else fs2

/-! ## The sink: scheduler state and the segment-closure handler -/

/-- An upstream `force-key-unit` request (`running_time` and `count`). -/
structure GstForceKeyUnitRequest where
  running_time : Nat
  count : Nat
  deriving DecidableEq

/-- The `GstHlsSink` fields the playlist, scheduler and encryptor touch. -/
structure GstHlsSink where
  playlist : GstM3U8Playlist
  index : Nat
  last_running_time : Nat
  waiting_fku : Bool
  target_duration : Nat
  encryption_method : Nat
  playlist_location : String
  playlist_root : Option String
  start_time : Option GDateTime
  deriving DecidableEq

/-- `schedule_next_key_unit`. With `target_duration == 0` it jumps to `out`
with `res = TRUE` (no request; the app schedules cuts itself). Otherwise it
pushes an upstream force-key-unit event for
`last_running_time + target_duration * GST_SECOND` with count `index + 1`;
`pushOk` is the result of `gst_pad_push_event`. Either way
`waiting_fku = res` on exit. -/
def schedule_next_key_unit (pushOk : Bool) (sink : GstHlsSink) :
    GstHlsSink × Option GstForceKeyUnitRequest :=
  if sink.target_duration = 0 then ({ sink with waiting_fku := true }, none)
  else
    let running_time := sink.last_running_time + sink.target_duration * GST_SECOND
    ({ sink with waiting_fku := pushOk },
      some { running_time := running_time, count := sink.index + 1 })

/-- `gst_hls_sink_ghost_buffer_probe` followed by
`gst_hls_sink_check_schedule_next_key_unit`: with `target_duration == 0` or
`waiting_fku` set the probe returns immediately; an invalid buffer timestamp
also returns; otherwise `last_running_time` is set to the buffer's running
time (`gst_segment_to_running_time` abstracted to the observed position) and
`schedule_next_key_unit` runs. -/
def gst_hls_sink_ghost_buffer_probe (pushOk : Bool) (timestamp : Option Nat)
    (sink : GstHlsSink) : GstHlsSink × Option GstForceKeyUnitRequest :=
  if sink.target_duration = 0 ∨ sink.waiting_fku then (sink, none)
  else
    match timestamp with
    | none => (sink, none)
    | some ts => schedule_next_key_unit pushOk { sink with last_running_time := ts }

/-- Run the buffer probe over a list of observations (push result and buffer
timestamp each), collecting every emitted cut request. -/
def observeTrace : GstHlsSink → List (Bool × Option Nat) →
    GstHlsSink × List GstForceKeyUnitRequest
  | sink, [] => (sink, [])
  | sink, ob :: rest =>
    match gst_hls_sink_ghost_buffer_probe ob.1 ob.2 sink with
    | (s1, none) => observeTrace s1 rest
    | (s1, some req) =>
      let r := observeTrace s1 rest
      (r.1, req :: r.2)

/-- The externally visible effects of the `GST_MESSAGE_ELEMENT` branch of
`gst_hls_sink_handle_message`, in execution order. -/
inductive SegmentEffect where
  | addEntry
  | encryptChunk
  | writePlaylist
  | scheduleKeyUnit
  deriving DecidableEq

/-- The `GST_MESSAGE_ELEMENT` (GstMultiFileSink, segment closed) branch of
`gst_hls_sink_handle_message`: compute the duration from the running-time
delta, update `last_running_time`, build the entry location, append the
playlist entry (`discont` is FALSE; the program date time, derived in C with
`g_date_time_add_seconds` from `start_time`, is abstracted to `start_time`),
then — in this order — encrypt the chunk when encryption is enabled, render
and persist the playlist, clear `waiting_fku` and run
`schedule_next_key_unit`.  The returned effect list records that order. -/
def gst_hls_sink_handle_segment_message (sink : GstHlsSink) (fs : FileSystem)
    (env : EncryptEnv) (pushOk : Bool) (filename : String) (running_time : Nat) :
    GstHlsSink × FileSystem × List SegmentEffect :=
  let duration := running_time - sink.last_running_time
  let program_date_time := sink.start_time
  let sink1 := { sink with last_running_time := running_time }
  let entry_location :=
    match sink1.playlist_root with
    | none => g_path_get_basename filename
    | some root => g_build_filename root (g_path_get_basename filename)
  let playlist1 := (gst_m3u8_playlist_add_entry sink1.playlist (some entry_location)
      none duration sink1.index false program_date_time).1
  let sink2 := { sink1 with playlist := playlist1 }
  let effects1 : List SegmentEffect := [SegmentEffect.addEntry]
  let fs1 := if sink2.encryption_method ≠ 0 then
      gst_hls_sink_encrypt_chunk env sink2.index fs filename
    else fs
  let effects2 := if sink2.encryption_method ≠ 0 then
      effects1 ++ [SegmentEffect.encryptChunk]
    else effects1
  let fs2 := fsWrite fs1 sink2.playlist_location
      (strBytes (gst_m3u8_playlist_render sink2.playlist))
  let effects3 := effects2 ++ [SegmentEffect.writePlaylist]
  let sink3 := { sink2 with waiting_fku := false }
  let sink4 := (schedule_next_key_unit pushOk sink3).1
  let effects4 := effects3 ++ [SegmentEffect.scheduleKeyUnit]
  (sink4, fs2, effects4)

/-! ## Concrete fixtures used by witnesses and counterexamples -/

/-- A sink with AES-128 encryption enabled, about to close its first segment. -/
def sinkC1 : GstHlsSink :=
  { playlist := gst_m3u8_playlist_new 3 5
    index := 0
    last_running_time := 0
    waiting_fku := false
    target_duration := 15
    encryption_method := 1
    playlist_location := "playlist.m3u8"
    playlist_root := none
    start_time := none }

/-- A file system holding one closed segment file. -/
def fsC1 : FileSystem := [("d/segment00000.ts", [7, 7, 7])]

/-- An environment in which every encryption step succeeds. -/
def envC1 : EncryptEnv :=
  { initOk := true, openEncOk := true, statOk := true, readOk := true,
    cipherOk := true, writeOk := true, renameOk := true,
    cipher := fun _ data => data }

/-- A finalized (ended) playlist. -/
def pC2 : GstM3U8Playlist := gst_m3u8_playlist_finalize (gst_m3u8_playlist_new 3 0)

/-- A VOD-typed playlist (the state `add_entry` actually rejects). -/
def pVodC2 : GstM3U8Playlist :=
  { gst_m3u8_playlist_new 3 5 with type := GstM3U8PlaylistType.vod }

/-- Three `add_entry` call-argument records for the window witness. -/
def opsC4 : List AddArgs :=
  [ { url := "segment00000.ts", title := none, duration := 2000000000,
      index := 0, discontinuous := false, program_date_time := none },
    { url := "segment00001.ts", title := none, duration := 2000000000,
      index := 1, discontinuous := false, program_date_time := none },
    { url := "segment00002.ts", title := none, duration := 2000000000,
      index := 2, discontinuous := false, program_date_time := none } ]

/-- First `add_entry` call of the sequence-number counterexample: index 5. -/
def addC5a : GstM3U8Playlist × Bool :=
  gst_m3u8_playlist_add_entry (gst_m3u8_playlist_new 3 0) (some "a.ts") none
    2000000000 5 false none

/-- Second call: index 0, making the sequence number drop from 6 to 1. -/
def addC5b : GstM3U8Playlist × Bool :=
  gst_m3u8_playlist_add_entry addC5a.1 (some "b.ts") none 2000000000 0 false none

/-- A call passing `(guint)-1 = 4294967295` — the sink's default start index
on the first segment closure — making `index + 1` wrap to 0. -/
def addC5w : GstM3U8Playlist × Bool :=
  gst_m3u8_playlist_add_entry (gst_m3u8_playlist_new 3 0) (some "w.ts") none
    2000000000 4294967295 false none

/-- A playlist retaining entries of 2.4 s, 2.6 s and 3.0 s. -/
def pC6 : GstM3U8Playlist :=
  { gst_m3u8_playlist_new 3 5 with
    entries :=
      [ { duration := 2400000000, title := none, url := "a.ts",
          discontinuous := false, program_date_time := none },
        { duration := 2600000000, title := none, url := "b.ts",
          discontinuous := false, program_date_time := none },
        { duration := 3000000000, title := none, url := "c.ts",
          discontinuous := false, program_date_time := none } ] }

/-- A sink with a cut request outstanding (`waiting_fku` set). -/
def sinkC7 : GstHlsSink :=
  { playlist := gst_m3u8_playlist_new 3 5
    index := 3
    last_running_time := 45000000000
    waiting_fku := true
    target_duration := 15
    encryption_method := 0
    playlist_location := "playlist.m3u8"
    playlist_root := none
    start_time := none }

/-- A cwd-relative segment file whose name collides with the encryptor's
temporary file name: its temporary path `./encrypted` is the same POSIX file. -/
def fsC9bad : FileSystem := [("encrypted", [1, 2, 3])]

/-- An environment whose cipher step fails (everything before it succeeds). -/
def envC9fail : EncryptEnv :=
  { initOk := true, openEncOk := true, statOk := true, readOk := true,
    cipherOk := false, writeOk := true, renameOk := true,
    cipher := fun _ data => data }

/-- An ordinarily named segment file for the encryption-failure witness. -/
def fsC9 : FileSystem := [("d/segment00004.ts", [9, 9])]

/-- A fresh playlist for the NULL-argument witness. -/
def pC10 : GstM3U8Playlist := gst_m3u8_playlist_new 3 5

/-! ## Helper lemmas -/

theorem fsRead_fsWriteKey_of_ne (fs : FileSystem) (k q : String) (d : List Nat)
    (h : k ≠ normPath q) : fsRead (fsWriteKey fs k d) q = fsRead fs q := by
  have hpq : (k == normPath q) = false := by simpa using h
  induction fs with
  | nil => simp [fsWriteKey, fsRead, List.find?, hpq]
  | cons e rest ih =>
    by_cases he : e.1 == k
    · rw [fsWriteKey, if_pos he]
      simp only [fsRead, List.find?]
      have he' : (e.1 == normPath q) = false := by
        have hep : e.1 = k := by simpa using he
        simp [hep, h]
      rw [hpq, he']
    · rw [fsWriteKey, if_neg (by simpa using he)]
      simp only [fsRead, List.find?]
      cases hq : e.1 == normPath q
      · simpa [fsRead] using ih
      · rfl

theorem fsRead_fsWrite_of_ne (fs : FileSystem) (p q : String) (d : List Nat)
    (h : normPath p ≠ normPath q) : fsRead (fsWrite fs p d) q = fsRead fs q :=
  fsRead_fsWriteKey_of_ne fs (normPath p) q d h

theorem splitAtLastSlash_append_slash (l s : List Char) :
    (splitAtLastSlash (l ++ '/' :: s)).1.isSome = true ∧
    (splitAtLastSlash (l ++ '/' :: s)).2 = (splitAtLastSlash s).2 := by
  induction l with
  | nil =>
    simp only [List.nil_append]
    rw [splitAtLastSlash]
    cases h : splitAtLastSlash s with
    | mk pre suf =>
      cases pre with
      | none => simp
      | some pr => simp
  | cons c l ih =>
    simp only [List.cons_append]
    rw [splitAtLastSlash]
    obtain ⟨ih1, ih2⟩ := ih
    cases h : splitAtLastSlash (l ++ '/' :: s) with
    | mk pre suf =>
      rw [h] at ih1 ih2
      cases pre with
      | none => simp at ih1
      | some pr => simpa using ih2

theorem stripDotSlash_suffix : (cs : List Char) →
    (splitAtLastSlash (stripDotSlash cs)).2 = (splitAtLastSlash cs).2
  | [] => rfl
  | [_] => rfl
  | c1 :: c2 :: rest => by
    rw [stripDotSlash]
    by_cases h : c1 = '.' ∧ c2 = '/'
    · rw [if_pos h, stripDotSlash_suffix rest, h.1, h.2]
      exact (splitAtLastSlash_append_slash ['.'] rest).2.symm
    · rw [if_neg h]

theorem normPath_basename (p : String) :
    g_path_get_basename (normPath p) = g_path_get_basename p := by
  unfold g_path_get_basename normPath
  rw [show (String.mk (stripDotSlash p.toList)).toList = stripDotSlash p.toList from rfl,
    stripDotSlash_suffix]

theorem basename_build_encrypted (dir : String) :
    g_path_get_basename (g_build_filename dir "encrypted") = "encrypted" := by
  unfold g_path_get_basename g_build_filename
  have hl : (dir ++ "/" ++ "encrypted").toList =
      dir.toList ++ '/' :: "encrypted".toList := by
    show (dir ++ "/" ++ "encrypted").data = dir.data ++ '/' :: "encrypted".data
    simp [String.data_append]
  rw [hl, (splitAtLastSlash_append_slash dir.toList "encrypted".toList).2]
  rfl

theorem norm_temp_ne_of_basename (filename : String)
    (hbase : g_path_get_basename filename ≠ "encrypted") :
    normPath (g_build_filename (g_path_get_dirname filename) "encrypted") ≠
      normPath filename := by
  intro heq
  apply hbase
  have h1 := congrArg g_path_get_basename heq
  rw [normPath_basename, normPath_basename, basename_build_encrypted] at h1
  exact h1.symm

theorem evictOldEntries_eq_drop (W : Nat) (_hW : 0 < W) (l : List GstM3U8Entry) :
    evictOldEntries W l = l.drop (l.length + 1 - W) := by
  induction l with
  | nil => simp [evictOldEntries]
  | cons e rest ih =>
    rw [evictOldEntries]
    by_cases h : W ≤ (e :: rest).length
    · rw [if_pos h, ih]
      have h2 : (e :: rest).length + 1 - W = (rest.length + 1 - W) + 1 := by
        simp only [List.length_cons] at h ⊢; omega
      rw [h2, List.drop_succ_cons]
    · rw [if_neg h]
      have h2 : (e :: rest).length + 1 - W = 0 := by
        simp only [List.length_cons, not_le] at h ⊢; omega
      rw [h2, List.drop_zero]

theorem add_entry_event_entries (p : GstM3U8Playlist) (a : AddArgs)
    (ht : p.type = GstM3U8PlaylistType.event) (hw : 0 < p.window_size) :
    (gst_m3u8_playlist_add_entry p (some a.url) a.title a.duration a.index
        a.discontinuous a.program_date_time).1.entries =
      evictOldEntries p.window_size p.entries ++ [addArgsEntry a] := by
  have hvod : ¬p.type = GstM3U8PlaylistType.vod := by rw [ht]; intro hc; cases hc
  simp [gst_m3u8_playlist_add_entry, hvod, hw, addArgsEntry]

theorem add_entry_window_type_invariant (p : GstM3U8Playlist) (url title : Option String)
    (duration index : Nat) (discontinuous : Bool) (pdt : Option GDateTime) :
    (gst_m3u8_playlist_add_entry p url title duration index discontinuous pdt).1.window_size
        = p.window_size ∧
    (gst_m3u8_playlist_add_entry p url title duration index discontinuous pdt).1.type
        = p.type := by
  cases url with
  | none => exact ⟨rfl, rfl⟩
  | some u =>
    by_cases hvod : p.type = GstM3U8PlaylistType.vod
    · simp [gst_m3u8_playlist_add_entry, hvod]
    · simp [gst_m3u8_playlist_add_entry, hvod]

theorem applyAddEntries_entries_eq (W : Nat) (hW : 0 < W) :
    ∀ (ops : List AddArgs) (p : GstM3U8Playlist) (hist : List GstM3U8Entry),
      p.window_size = W → p.type = GstM3U8PlaylistType.event →
      p.entries = hist.drop (hist.length - W) →
      (applyAddEntries p ops).entries =
        (hist ++ ops.map addArgsEntry).drop (hist.length + ops.length - W) := by
  intro ops
  induction ops with
  | nil =>
    intro p hist hw ht he
    simpa [applyAddEntries] using he
  | cons a rest ih =>
    intro p hist hw ht he
    rw [applyAddEntries]
    set p1 := (gst_m3u8_playlist_add_entry p (some a.url) a.title a.duration a.index
      a.discontinuous a.program_date_time).1 with hp1
    have hinv := add_entry_window_type_invariant p (some a.url) a.title a.duration a.index
      a.discontinuous a.program_date_time
    have h2 : p1.window_size = W := by rw [hp1, hinv.1, hw]
    have h3 : p1.type = GstM3U8PlaylistType.event := by rw [hp1, hinv.2, ht]
    have hent : p1.entries =
        (hist ++ [addArgsEntry a]).drop ((hist ++ [addArgsEntry a]).length - W) := by
      rw [hp1, add_entry_event_entries p a ht (by rw [hw]; exact hW), hw, he,
        evictOldEntries_eq_drop W hW, List.length_drop, List.drop_drop]
      have harith : hist.length - W + (hist.length - (hist.length - W) + 1 - W) =
          hist.length + 1 - W := by omega
      rw [harith]
      have hlen : (hist ++ [addArgsEntry a]).length - W = hist.length + 1 - W := by
        simp
      rw [hlen, List.drop_append_eq_append_drop]
      have h0 : hist.length + 1 - W - hist.length = 0 := by omega
      rw [h0, List.drop_zero]
    have hres := ih p1 (hist ++ [addArgsEntry a]) h2 h3 hent
    rw [hres]
    have hlist : (hist ++ [addArgsEntry a]) ++ rest.map addArgsEntry =
        hist ++ (a :: rest).map addArgsEntry := by simp
    have hnum : (hist ++ [addArgsEntry a]).length + rest.length - W =
        hist.length + (a :: rest).length - W := by simp; omega
    rw [hlist, hnum]

theorem foldl_max_duration (l : List GstM3U8Entry) :
    ∀ acc, l.foldl (fun acc e => if acc < e.duration then e.duration else acc) acc =
      max acc ((l.map (fun e => e.duration)).foldr max 0) := by
  induction l with
  | nil => intro acc; simp
  | cons e t ih =>
    intro acc
    rw [List.foldl_cons, ih]
    simp only [List.map_cons, List.foldr_cons]
    rcases Nat.lt_or_ge acc e.duration with h | h
    · rw [if_pos h]
      simp only [Nat.max_def]
      split_ifs <;> omega
    · rw [if_neg (by omega)]
      simp only [Nat.max_def]
      split_ifs <;> omega

/-! ## Claim theorems -/

/-- C1 (counterexample): on a concrete segment-closure event with AES-128
encryption enabled, the handler's effect trace is append-then-encrypt: the
entry is appended to the playlist strictly before the encryption step runs,
so the trace is not the claimed
encrypt / append / render-persist / notify order. -/
theorem hls_segment_closure_claimed_order_counterexample :
    ((gst_hls_sink_handle_segment_message sinkC1 fsC1 envC1 true
        "d/segment00000.ts" 3000000000).2.2).indexOf SegmentEffect.addEntry <
      ((gst_hls_sink_handle_segment_message sinkC1 fsC1 envC1 true
        "d/segment00000.ts" 3000000000).2.2).indexOf SegmentEffect.encryptChunk ∧
    (gst_hls_sink_handle_segment_message sinkC1 fsC1 envC1 true
        "d/segment00000.ts" 3000000000).2.2 ≠
      [SegmentEffect.encryptChunk, SegmentEffect.addEntry,
       SegmentEffect.writePlaylist, SegmentEffect.scheduleKeyUnit] := by
  decide

/-- C1 (amended): on every segment-closure event with encryption enabled the
handler appends the playlist entry first, then runs the encryption step on
the segment file, then renders and persists the playlist, then notifies the
scheduler; encryption completes (or definitively fails) before the playlist
document is rendered and persisted, but after the entry is appended. -/
theorem hls_segment_closure_effect_order (sink : GstHlsSink) (fs : FileSystem)
    (env : EncryptEnv) (pushOk : Bool) (filename : String) (running_time : Nat)
    (henc : sink.encryption_method ≠ 0) :
    (gst_hls_sink_handle_segment_message sink fs env pushOk filename running_time).2.2 =
      [SegmentEffect.addEntry, SegmentEffect.encryptChunk,
       SegmentEffect.writePlaylist, SegmentEffect.scheduleKeyUnit] := by
  simp [gst_hls_sink_handle_segment_message, henc]

/-- C1 (witness): the amended ordering at a concrete encrypted closure. -/
theorem hls_segment_closure_effect_order_witness :
    (gst_hls_sink_handle_segment_message sinkC1 fsC1 envC1 true
        "d/segment00000.ts" 3000000000).2.2 =
      [SegmentEffect.addEntry, SegmentEffect.encryptChunk,
       SegmentEffect.writePlaylist, SegmentEffect.scheduleKeyUnit] :=
  hls_segment_closure_effect_order sinkC1 fsC1 envC1 true "d/segment00000.ts"
    3000000000 (by decide)

/-- C2 (counterexample): after `finalize()` (the `ended`/`end_list` flag is
set), `add_entry` still succeeds and mutates the queue — the code only
rejects VOD-typed playlists, and nothing ever sets that type. -/
theorem m3u8_add_entry_after_finalize_counterexample :
    pC2.end_list = true ∧
    (gst_m3u8_playlist_add_entry pC2 (some "seg.ts") none 1000000000 0 false none).2
      = true ∧
    (gst_m3u8_playlist_add_entry pC2 (some "seg.ts") none 1000000000 0 false
      none).1.entries.length = 1 := by
  decide

/-- C2 (amended): `add_entry` fails — returning FALSE and leaving the entry
queue, the sequence number and every other field unchanged — exactly when the
playlist's type is VOD (or an argument is NULL); the `ended` flag does not
gate `add_entry`. -/
theorem m3u8_add_entry_rejects_only_vod (p : GstM3U8Playlist)
    (url title : Option String) (duration index : Nat) (discontinuous : Bool)
    (pdt : Option GDateTime) (h : p.type = GstM3U8PlaylistType.vod) :
    gst_m3u8_playlist_add_entry p url title duration index discontinuous pdt
      = (p, false) := by
  cases url <;> simp [gst_m3u8_playlist_add_entry, h]

/-- C2 (witness): a VOD playlist rejects a concrete `add_entry` call without
any mutation. -/
theorem m3u8_add_entry_rejects_only_vod_witness :
    gst_m3u8_playlist_add_entry pVodC2 (some "x.ts") none 1000000000 0 false none
      = (pVodC2, false) :=
  m3u8_add_entry_rejects_only_vod pVodC2 (some "x.ts") none 1000000000 0 false none rfl

/-- C3 (counterexample): the freshly constructed version-3 playlist with
`window_size = 0` does not render with `#EXT-X-TARGETDURATION:0` — the 500 ms
bias makes the empty maximum round up to 1. -/
theorem m3u8_render_empty_counterexample :
    gst_m3u8_playlist_render (gst_m3u8_playlist_new 3 0) ≠
      "#EXTM3U\n#EXT-X-VERSION:3\n#EXT-X-MEDIA-SEQUENCE:0\n#EXT-X-TARGETDURATION:0\n\n" := by
  decide

/-- C3 (amended): rendering the fresh empty playlist produces exactly the
claimed header text except that the target duration is 1
(`ceil((0 + 500 ms)/1 s) = 1`), with no `#EXT-X-ENDLIST` marker. -/
theorem m3u8_render_empty_playlist :
    gst_m3u8_playlist_render (gst_m3u8_playlist_new 3 0) =
      "#EXTM3U\n#EXT-X-VERSION:3\n#EXT-X-MEDIA-SEQUENCE:0\n#EXT-X-TARGETDURATION:1\n\n" := by
  decide

/-- C4: starting from a fresh playlist with `window_size = W > 0`, after any
sequence of successful `add_entry` calls the retained queue is exactly the
`W` most-recently-added entries (all of them while fewer than `W` exist) in
oldest-first order, and its length never exceeds `W`.  Instantiating `ops`
at every prefix of a call sequence gives the property after each call. -/
theorem m3u8_window_invariant (W version : Nat) (hW : 0 < W) (ops : List AddArgs) :
    (applyAddEntries (gst_m3u8_playlist_new version W) ops).entries =
      (ops.map addArgsEntry).drop (ops.length - W) ∧
    (applyAddEntries (gst_m3u8_playlist_new version W) ops).entries.length ≤ W := by
  have h := applyAddEntries_entries_eq W hW ops (gst_m3u8_playlist_new version W) []
    rfl rfl (by simp [gst_m3u8_playlist_new])
  simp only [List.nil_append, List.length_nil, Nat.zero_add] at h
  refine ⟨h, ?_⟩
  rw [h]
  simp only [List.length_drop, List.length_map]
  omega

/-- C4 (witness): three adds into a window of two retain the last two. -/
theorem m3u8_window_invariant_witness :
    (applyAddEntries (gst_m3u8_playlist_new 3 2) opsC4).entries =
      (opsC4.map addArgsEntry).drop (opsC4.length - 2) ∧
    (applyAddEntries (gst_m3u8_playlist_new 3 2) opsC4).entries.length ≤ 2 :=
  m3u8_window_invariant 2 3 (by decide) opsC4

/-- C5 (counterexample): `add_entry` sets `sequence_number` to its `index`
argument plus one in `guint` arithmetic rather than incrementing it: one
successful call with index 5 on a fresh playlist yields 6 (not
prior + 1 = 1), a following successful call with index 0 makes it drop from
6 to 1, and a call with the sink's default first index
`(guint)-1 = 4294967295` wraps it to 0. -/
theorem m3u8_sequence_number_counterexample :
    (gst_m3u8_playlist_new 3 0).sequence_number = 0 ∧
    addC5a.2 = true ∧ addC5a.1.sequence_number = 6 ∧
    addC5b.2 = true ∧ addC5b.1.sequence_number = 1 ∧
    addC5w.2 = true ∧ addC5w.1.sequence_number = 0 := by
  decide

/-- C5 (amended): after every successful `add_entry` call the playlist's
`sequence_number` equals the call's `index` argument plus one reduced
modulo 2^32 (`guint` arithmetic), regardless of the prior value — so it
advances by one per call exactly when the caller passes consecutive
in-range indices, it wraps to 0 for index `(guint)-1`, and it is not
monotone for arbitrary indices. -/
theorem m3u8_add_entry_sequence_from_index (p : GstM3U8Playlist)
    (url title : Option String) (duration index : Nat) (discontinuous : Bool)
    (pdt : Option GDateTime)
    (h : (gst_m3u8_playlist_add_entry p url title duration index discontinuous pdt).2
      = true) :
    (gst_m3u8_playlist_add_entry p url title duration index discontinuous
      pdt).1.sequence_number = (index + 1) % 4294967296 := by
  cases url with
  | none => simp [gst_m3u8_playlist_add_entry] at h
  | some u =>
    by_cases hv : p.type = GstM3U8PlaylistType.vod
    · simp [gst_m3u8_playlist_add_entry, hv] at h
    · simp [gst_m3u8_playlist_add_entry, hv]

/-- C5 (witness): a successful call with index 7 sets the sequence number
to (7 + 1) mod 2^32 = 8. -/
theorem m3u8_add_entry_sequence_from_index_witness :
    (gst_m3u8_playlist_add_entry (gst_m3u8_playlist_new 3 5) (some "w.ts") none 0 7
      false none).1.sequence_number = (7 + 1) % 4294967296 :=
  m3u8_add_entry_sequence_from_index (gst_m3u8_playlist_new 3 5) (some "w.ts") none 0 7
    false none rfl

/-- C6: the computed target duration is exactly the ceiling, in whole
seconds, of the maximum retained entry duration plus the 500 ms bias; and on
retained durations of 2,400,000,000 ns, 2,600,000,000 ns and
3,000,000,000 ns it equals 4. -/
theorem m3u8_target_duration_is_ceiling :
    (∀ p : GstM3U8Playlist,
      (gst_m3u8_playlist_target_duration p : ℤ) =
        ⌈((((p.entries.map (fun e => e.duration)).foldr max 0 : ℕ) : ℚ) + 500000000) /
          1000000000⌉) ∧
    gst_m3u8_playlist_target_duration pC6 = 4 := by
  constructor
  · intro p
    have hmd : maxEntryDuration p = (p.entries.map (fun e => e.duration)).foldr max 0 := by
      rw [maxEntryDuration, foldl_max_duration]
      simp
    obtain ⟨M, hMdef⟩ : ∃ M, (p.entries.map (fun e => e.duration)).foldr max 0 = M :=
      ⟨_, rfl⟩
    obtain ⟨q, hqdef⟩ : ∃ q, gst_m3u8_playlist_target_duration p = q := ⟨_, rfl⟩
    have htd : q = (M + 500000000 + 999999999) / 1000000000 := by
      rw [← hqdef, gst_m3u8_playlist_target_duration, hmd, hMdef]
      norm_num [GST_MSECOND, GST_SECOND]
    have h1 : M + 500000000 ≤ q * 1000000000 := by rw [htd]; omega
    have h2 : q * 1000000000 < M + 500000000 + 1000000000 := by rw [htd]; omega
    rw [hqdef, hMdef]
    symm
    rw [Int.ceil_eq_iff]
    constructor
    · rw [lt_div_iff₀ (by norm_num : (0 : ℚ) < 1000000000)]
      have h2' : (q : ℚ) * 1000000000 < (M : ℚ) + 500000000 + 1000000000 := by
        exact_mod_cast h2
      push_cast
      linarith
    · rw [div_le_iff₀ (by norm_num : (0 : ℚ) < 1000000000)]
      have h1' : (M : ℚ) + 500000000 ≤ (q : ℚ) * 1000000000 := by exact_mod_cast h1
      push_cast
      linarith
  · decide

/-- C7: the scheduler keeps at most one cut request outstanding.  Whenever a
buffer observation triggers a successfully pushed upstream force-key-unit
request, the sink leaves the probe with `waiting_fku` set; and from any state
with `waiting_fku` set, an arbitrary sequence of further buffer observations
(before the segment-closed handler clears the flag) emits no request at all
and leaves the sink state unchanged. -/
theorem hls_sink_single_pending_cut_request (sink : GstHlsSink) :
    (∀ (pushOk : Bool) (ts : Option Nat) (s1 : GstHlsSink)
        (req : GstForceKeyUnitRequest),
      gst_hls_sink_ghost_buffer_probe pushOk ts sink = (s1, some req) →
      pushOk = true → s1.waiting_fku = true) ∧
    (sink.waiting_fku = true → ∀ obs, observeTrace sink obs = (sink, [])) := by
  constructor
  · intro pushOk ts s1 req hprobe hpush
    rw [gst_hls_sink_ghost_buffer_probe.eq_def] at hprobe
    split at hprobe
    · simp at hprobe
    · cases ts with
      | none => simp at hprobe
      | some t =>
        dsimp only at hprobe
        rw [schedule_next_key_unit.eq_def] at hprobe
        split at hprobe
        · simp at hprobe
        · simp only [Prod.mk.injEq] at hprobe
          rw [← hprobe.1, hpush]
  · intro hw obs
    induction obs with
    | nil => rw [observeTrace]
    | cons ob rest ih =>
      have hp : gst_hls_sink_ghost_buffer_probe ob.1 ob.2 sink = (sink, none) := by
        rw [gst_hls_sink_ghost_buffer_probe.eq_def, if_pos (Or.inr hw)]
      rw [observeTrace, hp]
      exact ih

/-- C7 (witness): with a request outstanding, three further observations
emit nothing and change nothing. -/
theorem hls_sink_single_pending_cut_request_witness :
    observeTrace sinkC7 [(true, some 50000000000), (false, none),
      (true, some 60000000000)] = (sinkC7, []) :=
  (hls_sink_single_pending_cut_request sinkC7).2 rfl
    [(true, some 50000000000), (false, none), (true, some 60000000000)]

/-- C8: for every sequence index the derived IV is 16 bytes, its first 12
bytes are zero, and its last 4 bytes are the big-endian encoding of the
(32-bit) index — decoding them base 256 recovers the index; concretely, for
index 5 the IV is twelve zero bytes followed by `00 00 00 05`. -/
theorem hls_create_iv_layout :
    (∀ index : Nat,
      (gst_hls_sink_init_encrypting_iv index).length = 16 ∧
      (gst_hls_sink_init_encrypting_iv index).take 12 = List.replicate 12 0 ∧
      ((gst_hls_sink_init_encrypting_iv index).drop 12).foldl
          (fun a b => a * 256 + b) 0 = index % 4294967296) ∧
    gst_hls_sink_init_encrypting_iv 5 = List.replicate 12 0 ++ [0, 0, 0, 5] := by
  have hform : ∀ n : Nat, gst_hls_sink_init_encrypting_iv n =
      [0, 0, 0, 0, 0, 0, 0, 0, 0, 0, 0, 0] ++ beBytes4 (n % 4294967296) := by
    intro n; rfl
  constructor
  · intro index
    rw [hform]
    refine ⟨by simp [beBytes4], by rfl, ?_⟩
    simp only [beBytes4, List.drop_append_eq_append_drop, List.length_cons,
      List.length_nil, List.foldl]
    norm_num
    omega
  · decide

/-- C9 (counterexample): the "separate temporary path" premise of the claim
fails when the segment file itself is named `encrypted`: for the
cwd-relative file name `encrypted` (the default `location` is cwd-relative)
the temporary path is `./encrypted` — the same POSIX file — so opening it
with `"wb"` truncates the original, and a subsequent cipher-step failure
leaves the original's bytes changed (here: truncated to empty). -/
theorem hls_encrypt_chunk_collision_counterexample :
    fsRead (gst_hls_sink_encrypt_chunk envC9fail 4 fsC9bad "encrypted")
        "encrypted" = some [] ∧
    fsRead fsC9bad "encrypted" = some [1, 2, 3] := by
  decide

/-- C9 (amended): provided the segment file is not itself named
`encrypted` — so the temporary path `dirname(filename)/encrypted` is a
different file — a failure of any step of the per-segment encryption —
cipher initialization, opening the source or the temporary destination,
`stat`, reading the source, the cipher itself, or writing the ciphertext —
leaves the original segment file's bytes byte-identical: the ciphertext goes
to the temporary path, which is renamed over the original only after a fully
successful write. -/
theorem hls_encrypt_chunk_failure_preserves_chunk (env : EncryptEnv) (index : Nat)
    (fs : FileSystem) (filename : String)
    (hbase : g_path_get_basename filename ≠ "encrypted")
    (hfail : env.initOk = false ∨ env.openEncOk = false ∨ env.statOk = false ∨
      env.readOk = false ∨ env.cipherOk = false ∨ env.writeOk = false ∨
      fsRead fs filename = none) :
    fsRead (gst_hls_sink_encrypt_chunk env index fs filename) filename =
      fsRead fs filename := by
  have hpath := norm_temp_ne_of_basename filename hbase
  rw [gst_hls_sink_encrypt_chunk]
  cases hinit : env.initOk with
  | false => simp
  | true =>
    simp only [Bool.not_true, Bool.false_eq_true, if_false]
    cases hopen : env.openEncOk with
    | false =>
      simp only [Bool.not_false, Bool.or_true, if_false, if_true]
      cases hnone : (fsRead fs filename).isNone <;> simp
    | true =>
      simp only [Bool.not_true, Bool.or_false, if_true]
      cases hnone : (fsRead fs filename).isNone with
      | true =>
        simp only [if_true]
        exact fsRead_fsWrite_of_ne fs _ filename [] hpath
      | false =>
        simp only [Bool.false_eq_true, if_false]
        have hwr : ∀ d, fsRead (fsWrite fs
            (g_build_filename (g_path_get_dirname filename) "encrypted") d) filename =
            fsRead fs filename :=
          fun d => fsRead_fsWrite_of_ne fs _ filename d hpath
        cases hstat : env.statOk with
        | false => simp [hwr]
        | true =>
          cases hread : env.readOk with
          | false => simp [hwr]
          | true =>
            cases hciph : env.cipherOk with
            | false => simp [hwr]
            | true =>
              cases hwrite : env.writeOk with
              | false => simp [hwr]
              | true =>
                exfalso
                rcases hfail with h | h | h | h | h | h | h
                · rw [hinit] at h; cases h
                · rw [hopen] at h; cases h
                · rw [hstat] at h; cases h
                · rw [hread] at h; cases h
                · rw [hciph] at h; cases h
                · rw [hwrite] at h; cases h
                · rw [h] at hnone; cases hnone

/-- C9 (witness): with everything up to the cipher succeeding and the cipher
failing, a normally named segment file keeps its bytes. -/
theorem hls_encrypt_chunk_failure_preserves_chunk_witness :
    fsRead (gst_hls_sink_encrypt_chunk envC9fail 4 fsC9 "d/segment00004.ts")
        "d/segment00004.ts" = fsRead fsC9 "d/segment00004.ts" :=
  hls_encrypt_chunk_failure_preserves_chunk envC9fail 4 fsC9 "d/segment00004.ts"
    (by decide) (Or.inr (Or.inr (Or.inr (Or.inr (Or.inl rfl)))))

/-- The two theorems of C9 are consistent: the counterexample's file name
violates the amended hypothesis (its basename is `encrypted`). -/
theorem hls_encrypt_chunk_collision_outside_hypothesis :
    g_path_get_basename "encrypted" = "encrypted" := by
  decide

/-- C10: `add_entry` with a NULL playlist or a NULL url fails (returns
FALSE) and leaves the playlist completely unchanged — no entry appended,
none evicted, sequence number untouched. -/
theorem m3u8_add_entry_null_guard (playlist : Option GstM3U8Playlist)
    (url title : Option String) (duration index : Nat) (discontinuous : Bool)
    (pdt : Option GDateTime) (h : playlist = none ∨ url = none) :
    gst_m3u8_playlist_add_entry_checked playlist url title duration index
      discontinuous pdt = (playlist, false) := by
  rcases h with h | h
  · subst h; rfl
  · subst h
    cases playlist with
    | none => rfl
    | some p => simp [gst_m3u8_playlist_add_entry_checked, gst_m3u8_playlist_add_entry]

/-- C10 (witness): a NULL url on a concrete playlist is rejected without
mutation. -/
theorem m3u8_add_entry_null_guard_witness :
    gst_m3u8_playlist_add_entry_checked (some pC10) none none 1000000000 0 false none
      = (some pC10, false) :=
  m3u8_add_entry_null_guard (some pC10) none none 1000000000 0 false none (Or.inr rfl)
